import Mathlib

/-!
Verification development for the clusterfuc agent library: a shallow
embedding of the tool-registration surface (src/agent.go, src/coa.go,
src/clusterfuc.go), the provider adapters (src/pkg/openai/openai.go,
src/pkg/gemini/gemini.go), the agent facade (src/pkg/agent/agent.go),
and the tool wrappers (CreateTool, ExecuteableFunction).

Conventions of the embedding:
- Go `any` values that originate from JSON are modelled by `JVal`.
- Go byte blobs holding marshalled structures are modelled by the
  structures themselves (serialize/deserialize is the identity, per the
  round-trip law of the state blobs).
- The HTTP transport is modelled by a scripted list of responses; each
  round trip consumes one.  An exhausted script is a transport error.
- The call context is modelled as `ctx : Nat → Bool`, giving for each
  request index whether the context is already done at the check that
  precedes that request.
- Mutating methods are modelled as functions returning the post-state.
-/

namespace Clusterfuc

/-- JSON values, modelling Go `any` data decoded from / encoded to JSON. -/
inductive JVal where
  | null
  | bool (b : Bool)
  | num (n : Int)
  | str (s : String)
  | arr (elems : List JVal)
  | obj (fields : List (String × JVal))

/-! ## Registration model: src/agent.go -/

/-- `const MAX_TOOLS_COUMT = 10` (src/agent.go, also internal/model). -/
def MAX_TOOLS_COUMT : Nat := 10

/-- `AgentToolDefinition` (src/agent.go): properties + required of the
derived schema. -/
structure AgentToolDefinition where
  properties : JVal
  required : List String

/-- `AgentTool` (src/agent.go): an executable (bytes in, bytes out,
modelled as strings) plus its definition. -/
structure AgentTool where
  execute : String → Except String String
  definition : AgentToolDefinition

/-- `Agent` (src/agent.go).  The Go field `Executables` is a
`map[string]AgentTool`; `none` models the nil map left by `NewAgent`,
`some m` an initialized map whose entries are the list `m`
(keys distinct, as in a Go map). -/
structure GoAgent where
  prompt : String
  name : String
  model : String
  executables : Option (List (String × AgentTool))

/-- `len(a.Executables)`: the nil map has length 0. -/
def mapLen (m : Option (List (String × AgentTool))) : Nat :=
  (m.getD []).length

/-- `a.Executables[name]` lookup: reading from the nil map yields no entry. -/
def mapLookup (m : Option (List (String × AgentTool))) (n : String) :
    Option AgentTool :=
  (m.getD []).lookup n

/-- Errors of the registration surface (src/errors.go /
src/unnamed/part_004): `ErrExceededMaxToolCount`, `ErrToolAlreadyExists`. -/
inductive RegErr where
  | exceededMaxToolCount
  | toolAlreadyExists
deriving DecidableEq

/-- Outcome of `Agent.Register`: success with the updated agent, an error
with the (unchanged) agent, or a runtime panic (assignment into the nil
map). -/
inductive RegisterResult where
  | ok (a : GoAgent)
  | err (e : RegErr) (a : GoAgent)
  | panicked

/-- `Agent.Register` (src/agent.go lines 140-151):

```go
if len(a.Executables) > MAX_TOOLS_COUMT { return ErrExceededMaxToolCount }
if _, ok := a.Executables[name]; ok { return ErrToolAlreadyExists }
a.Executables[name] = tool
```

The final assignment panics when the map is nil. -/
def GoAgent.register (a : GoAgent) (name : String) (tool : AgentTool) :
    RegisterResult :=
  if mapLen a.executables > MAX_TOOLS_COUMT then
    .err .exceededMaxToolCount a
  else if (mapLookup a.executables name).isSome then
    .err .toolAlreadyExists a
  else
    match a.executables with
    | none => .panicked
    | some m => .ok { a with executables := some (m ++ [(name, tool)]) }

/-- Options for `NewAgent` (src/agent.go): each option mutates the agent
or fails. -/
def OptsAgent : Type := GoAgent → Except String GoAgent

/-- `NewAgent` (src/agent.go lines 53-65): starts from `&Agent{}` (all
zero values, in particular a nil `Executables` map) and applies the
options in order, failing on the first error. -/
def NewAgent (opts : List OptsAgent) : Except String GoAgent :=
  let rec go (a : GoAgent) : List OptsAgent → Except String GoAgent
    | [] => .ok a
    | opt :: rest =>
      match opt a with
      | .error e => .error e
      | .ok a' => go a' rest
  go { prompt := "", name := "", model := "", executables := none } opts

/-! ## `ExtendAgent` (src/clusterfuc.go lines 73-84)

`ExtendAgent` appends a wrapped function to the `Functions` slice of a
`pkg/agent` agent, guarded by `len(a.Functions) >= model.MAX_TOOLS_COUMT`.
We model it at the level of the functions slice. -/

/-- Schema subset shared by the tool wrappers. -/
structure JSONSchemaSubset where
  properties : JVal
  required : List String

/-- `executable.Executable[any,any]` / `tool.Tool[any,any]`: a named
executable taking and producing JSON-modelled values. -/
structure Tool where
  name : String
  description : String
  definition : JSONSchemaSubset
  execute : JVal → Except String JVal

/-- `ExtendAgent` (src/clusterfuc.go): rejects when the agent already
holds `MAX_TOOLS_COUMT` functions, otherwise appends; returns the
post-state slice and the error, mirroring `(a, err)`. -/
def ExtendAgent (functions : List Tool) (f : Tool) :
    List Tool × Option RegErr :=
  if functions.length ≥ MAX_TOOLS_COUMT then
    (functions, some .exceededMaxToolCount)
  else
    (functions ++ [f], none)

/-! ## OpenAI adapter: src/pkg/openai/openai.go -/

/-- One entry of a response `message` item's `Content` array
(`MessageContent`): an output type tag, the text, and an optional
refusal. -/
structure OAMessageContent where
  type : String
  text : String
  refusal : String

/-- One item of a response's `Output` array, already classified by its
`BaseItem.Type` tag (`message`, `function_call`, or anything else). -/
inductive OAOutputItem where
  | message (role : String) (contents : List OAMessageContent)
  | functionCall (callId : String) (name : String) (arguments : JVal)
  | other (typeName : String)

/-- A `/v1/responses` response (`Response`): the completion `Status` and
the `Output` items; `none` models a JSON body without an `output` array
(`resp.Output == nil`). -/
structure OAResponse where
  status : String
  output : Option (List OAOutputItem)

/-- A `FunctionTool` declaration attached to the request body. -/
structure OAFunctionTool where
  type : String
  name : String
  description : String
  strict : Bool
  properties : JVal
  required : List String

/-- One entry of the request body's `Input` array: either a retained
response item / user message, or a `function_call_output` item.  The Go
`Output` field holds the JSON serialization of the value; we keep the
structured value. -/
inductive OAInputItem where
  | item (i : OAOutputItem)
  | callOutput (callId : String) (output : JVal)

/-- The `text` response-format configuration set by `Body` when a schema
is supplied. -/
structure OATextConfig where
  type : String
  description : String
  name : String
  strict : Bool
  schema : JVal

/-- The request body (`CreateResponse`), restricted to the fields the
code reads or writes. -/
structure CreateResponse where
  model : String
  instructions : String
  text : Option OATextConfig
  tools : List OAFunctionTool
  input : List OAInputItem

/-- The empty request body (`var body CreateResponse`). -/
def emptyCreateResponse : CreateResponse :=
  { model := "", instructions := "", text := none, tools := [], input := [] }

/-- `OpenAI.Body` (src/pkg/openai/openai.go lines 226-275): rejects empty
user input, starts from the deserialized history (`none` models an empty
blob), sets the system instructions, the optional schema configuration,
appends the user message, and sets the model. -/
def OpenAIBody (model : String) (userInput : String) (prompt : String)
    (history : Option CreateResponse) (schema : Option JVal) :
    Except String CreateResponse :=
  if userInput = "" then
    .error "empty user input is weird"
  else
    let body := history.getD emptyCreateResponse
    let body := { body with instructions := prompt }
    let body :=
      match schema with
      | some s =>
        { body with
          text := some
            { type := "json_schema"
              strict := true
              description := "schema for all responses to correspond to"
              name := "schema"
              schema := s } }
      | none => body
    let body :=
      { body with
        input := body.input ++
          [OAInputItem.item (OAOutputItem.message "user"
            [{ type := "input_text", text := userInput, refusal := "" }])] }
    .ok { body with model := model }

/-- `errorResponse` (src/pkg/openai/openai.go lines 482-497): the
structured failure payload recorded for a failed tool execution.  The Go
code stores its JSON serialization; we keep the structured value. -/
def errorResponse (message : String) : JVal :=
  .obj [("success", .bool false), ("reason", .str message)]

/-- The wire declaration built for a registered tool inside `Generate`. -/
def mkFunctionTool (t : Tool) : OAFunctionTool :=
  { type := "function"
    name := t.name
    description := t.description
    strict := false
    properties := t.definition.properties
    required := t.definition.required }

/-- The `if len(body.Tools) == 0` prologue of `Generate`: tool
declarations are attached once per call chain. -/
def oaSetTools (tools : List Tool) (body : CreateResponse) : CreateResponse :=
  if body.tools.isEmpty then { body with tools := tools.map mkFunctionTool }
  else body

/-- Errors `Generate` can surface. -/
inductive OAErr where
  | cancelled
  | transport
  | invalidOutput
  | nonOutputText (t : String)
  | refusal (r : String)
  | unmatchedType (t : String)
  | decodeFailure
deriving DecidableEq

/-- The loop-local state of one round trip: the accumulating `body.Input`,
the `reply` string, and the `calls` flag. -/
structure OAFold where
  input : List OAInputItem
  reply : String
  calls : Bool

/-- The value appended as a `function_call_output` for one matching tool:
the marshalled result on success, `errorResponse` of the message on
failure. -/
def oaOutputOf (t : Tool) (args : JVal) : JVal :=
  match t.execute args with
  | .error e => errorResponse e
  | .ok r => r

/-- The `for _, tool := range tools` dispatch loop of the `function_call`
case: every registered tool whose name equals the called name executes,
and its output item is appended. -/
def oaDispatch (callId : String) (nm : String) (args : JVal)
    (st : OAFold) : List Tool → OAFold
  | [] => st
  | t :: rest =>
    if t.name == nm then
      oaDispatch callId nm args
        { st with input := st.input ++ [.callOutput callId (oaOutputOf t args)] } rest
    else
      oaDispatch callId nm args st rest

/-- The `for _, content := range message.Content` loop: rejects
non-`output_text` content, rejects refusals, accumulates the text. -/
def processOAContents (st : OAFold) :
    List OAMessageContent → Except OAErr OAFold
  | [] => .ok st
  | c :: rest =>
    if c.type != "output_text" then .error (.nonOutputText c.type)
    else if c.refusal != "" then .error (.refusal c.refusal)
    else processOAContents { st with reply := st.reply ++ c.text } rest

/-- One iteration of the `for _, output := range resp.Output` loop. -/
def processOAItem (tools : List Tool) (st : OAFold) :
    OAOutputItem → Except OAErr OAFold
  | .message role contents =>
    processOAContents
      { st with input := st.input ++ [.item (.message role contents)] } contents
  | .functionCall callId nm args =>
    let st := { st with input := st.input ++ [.item (.functionCall callId nm args)] }
    .ok { oaDispatch callId nm args st tools with calls := true }
  | .other ty => .error (.unmatchedType ty)

/-- The whole `for _, output := range resp.Output` loop. -/
def processOAItems (tools : List Tool) (st : OAFold) :
    List OAOutputItem → Except OAErr OAFold
  | [] => .ok st
  | item :: rest =>
    match processOAItem tools st item with
    | .error e => .error e
    | .ok st' => processOAItems tools st' rest

/-- Result of `Generate`: the final body and reply, or an error; `sent`
counts the requests actually issued to the transport. -/
inductive OAGenResult where
  | ok (body : CreateResponse) (reply : String) (sent : Nat)
  | err (e : OAErr) (sent : Nat)

/-- `OpenAI.Generate` (src/pkg/openai/openai.go lines 277-430).  The
transport is scripted by `responses`; each recursion consumes one.  The
context is checked before each request is issued; the `calls` flag or a
non-`completed` status triggers another round trip with the updated
body.  (The `body == nil` guard is unrepresentable: Lean values are
never nil.) -/
def generateOA (ctx : Nat → Bool) (tools : List Tool) :
    List OAResponse → CreateResponse → Nat → OAGenResult
  | responses, body, sent =>
    let body := oaSetTools tools body
    if ctx sent then .err .cancelled sent
    else
      match responses with
      | [] => .err .transport sent
      | resp :: rest =>
        match resp.output with
        | none => .err .invalidOutput (sent + 1)
        | some items =>
          match processOAItems tools { input := body.input, reply := "", calls := false } items with
          | .error e => .err e (sent + 1)
          | .ok st =>
            let body' := { body with input := st.input }
            if st.calls || (resp.status != "completed") then
              generateOA ctx tools rest body' (sent + 1)
            else
              .ok body' st.reply (sent + 1)

/-! ## Gemini adapter: src/pkg/gemini/gemini.go -/

/-- `FunctionCall`: a part's function call.  The Go zero value (no call)
is `{name := "", args := .null}`. -/
structure GemFunctionCall where
  name : String
  args : JVal

/-- `FunctionResponse`: a part's function response. -/
structure GemFunctionResponse where
  name : String
  response : JVal

/-- `Part`: text XOR function call XOR function response (union enforced
only dynamically). -/
structure GemPart where
  text : String
  functionCall : GemFunctionCall
  functionResponse : GemFunctionResponse
  thought : Bool

/-- A part holding only text. -/
def gemTextPart (s : String) : GemPart :=
  { text := s
    functionCall := { name := "", args := .null }
    functionResponse := { name := "", response := .null }
    thought := false }

/-- A part holding only a function call. -/
def gemCallPart (nm : String) (args : JVal) : GemPart :=
  { text := ""
    functionCall := { name := nm, args := args }
    functionResponse := { name := "", response := .null }
    thought := false }

/-- A part holding only a function response. -/
def gemResponsePart (nm : String) (resp : JVal) : GemPart :=
  { text := ""
    functionCall := { name := "", args := .null }
    functionResponse := { name := nm, response := resp }
    thought := false }

/-- `Content`: one turn, a role and its parts. -/
structure GemContent where
  role : String
  parts : List GemPart

/-- `FunctionDeclaration` as built inside `Generate`: note the source
uses the tool's name as the declaration's description. -/
structure GemFunctionDeclaration where
  name : String
  description : String
  parameters : JVal

/-- `Tool` of the gemini wire format. -/
structure GemTool where
  functionDeclarations : List GemFunctionDeclaration

/-- The `responseSchema` of `GenerationConfig`. -/
structure GemResponseSchema where
  properties : JVal
  required : List String
  title : String
  description : String

/-- `RequestBody`, restricted to the fields the code reads or writes. -/
structure GemRequestBody where
  contents : List GemContent
  cachedContent : String
  tools : List GemTool
  responseSchema : GemResponseSchema
  systemInstruction : GemPart

/-- The empty gemini request body (`var body RequestBody`). -/
def emptyGemRequestBody : GemRequestBody :=
  { contents := []
    cachedContent := ""
    tools := []
    responseSchema := { properties := .null, required := [], title := "", description := "" }
    systemInstruction := gemTextPart "" }

/-- `Candidate` of a response (only the content is read). -/
structure GemCandidate where
  content : GemContent

/-- `ResponseBody`: `none` models a JSON body without candidates
(`resp.Candidates == nil`). -/
structure GemResponse where
  candidates : Option (List GemCandidate)

/-- The function declaration built for a registered tool inside
`Generate` (src/pkg/gemini/gemini.go lines 201-215). -/
def mkGemFunctionDeclaration (t : Tool) : GemFunctionDeclaration :=
  { name := t.name
    description := t.name
    parameters := .obj
      [("type", .str "object"),
       ("properties", t.definition.properties),
       ("required", .arr (t.definition.required.map .str))] }

/-- The `if len(body.Tools) == 0` prologue of the gemini `Generate`. -/
def gemSetTools (tools : List Tool) (body : GemRequestBody) : GemRequestBody :=
  if body.tools.isEmpty then
    { body with tools := [{ functionDeclarations := tools.map mkGemFunctionDeclaration }] }
  else body

/-- The structured failure content appended when a tool execution fails
(src/pkg/gemini/gemini.go lines 261-274): note the field is named
`failureReason`. -/
def gemFailureContent (nm : String) (msg : String) : GemContent :=
  { role := "user"
    parts := [gemResponsePart nm
      (.obj [("success", .bool false), ("failureReason", .str msg)])] }

/-- The function-response content appended after every execution
(src/pkg/gemini/gemini.go lines 276-285). -/
def gemResponseContent (nm : String) (out : JVal) : GemContent :=
  { role := "user", parts := [gemResponsePart nm out] }

/-- The contents appended for one matching tool: on failure the failure
content is appended and, because the source does not skip the common
path, a function-response content holding the nil result follows; on
success only the function-response content. -/
def gemEntriesOf (nm : String) (args : JVal) (t : Tool) : List GemContent :=
  match t.execute args with
  | .error e => [gemFailureContent nm e, gemResponseContent nm .null]
  | .ok out => [gemResponseContent nm out]

/-- The loop-local state of one gemini round trip. -/
structure GemFold where
  contents : List GemContent
  reply : String
  calls : Bool

/-- The `for _, tool := range tools` dispatch loop of the function-call
case: every registered tool whose name equals the called name executes. -/
def gemDispatch (nm : String) (args : JVal) (st : GemFold) :
    List Tool → GemFold
  | [] => st
  | t :: rest =>
    if t.name == nm then
      gemDispatch nm args
        { st with contents := st.contents ++ gemEntriesOf nm args t } rest
    else
      gemDispatch nm args st rest

/-- The `for _, part := range candidate.Content.Parts` loop: a part with
no function-call name contributes its text to the reply; otherwise the
`calls` flag flips and the dispatch loop runs. -/
def processGemParts (tools : List Tool) (st : GemFold) :
    List GemPart → GemFold
  | [] => st
  | p :: rest =>
    if p.functionCall.name == "" then
      processGemParts tools { st with reply := st.reply ++ p.text } rest
    else
      processGemParts tools
        (gemDispatch p.functionCall.name p.functionCall.args
          { st with calls := true } tools) rest

/-- The `for _, candidate := range resp.Candidates` loop: each
candidate's content is retained in the history, then its parts are
processed. -/
def processGemCandidates (tools : List Tool) (st : GemFold) :
    List GemCandidate → GemFold
  | [] => st
  | c :: rest =>
    processGemCandidates tools
      (processGemParts tools
        { st with contents := st.contents ++ [c.content] } c.content.parts) rest

/-- Errors the gemini `Generate` can surface. -/
inductive GemErr where
  | cancelled
  | transport
  | invalidOutput
deriving DecidableEq

/-- Result of the gemini `Generate`. -/
inductive GemGenResult where
  | ok (body : GemRequestBody) (reply : String) (sent : Nat)
  | err (e : GemErr) (sent : Nat)

/-- `Gemini.Generate` (src/pkg/gemini/gemini.go lines 193-302).  The
transport is scripted by `responses`; the context is checked before each
request; any function-call part triggers another round trip. -/
def generateGem (ctx : Nat → Bool) (tools : List Tool) :
    List GemResponse → GemRequestBody → Nat → GemGenResult
  | responses, body, sent =>
    let body := gemSetTools tools body
    if ctx sent then .err .cancelled sent
    else
      match responses with
      | [] => .err .transport sent
      | resp :: rest =>
        match resp.candidates with
        | none => .err .invalidOutput (sent + 1)
        | some cands =>
          let st := processGemCandidates tools
            { contents := body.contents, reply := "", calls := false } cands
          let body' := { body with contents := st.contents }
          if st.calls then generateGem ctx tools rest body' (sent + 1)
          else .ok body' st.reply (sent + 1)

/-! ## Agent facade: src/pkg/agent/agent.go (`Agent.CallV2`) and the
identical validation/persistence logic of `Agent.Call`
(src/unnamed/part_001). -/

/-- `model.AIModel`: the type switch distinguishes `GeminiAiModel` and
`OpenAiModel`; any other dynamic type matches neither branch. -/
inductive AIModel where
  | gemini (name : String)
  | openai (name : String)
  | other (name : String)

/-- `Memoriser` (src/pkg/memoriser): keyed persistence.  Blobs hold the
marshalled request body; we keep the structure (`none` = empty blob). -/
structure Memoriser where
  save : String → CreateResponse → Bool
  retrieve : String → Except String (Option CreateResponse)

/-- The agent of src/pkg/agent/agent.go, restricted to the fields
`CallV2` reads (the HTTP client and auth feed only the transport, which
is scripted). -/
structure PkgAgent where
  tools : List Tool
  functions : List Tool
  memoriser : Option Memoriser
  systemPrompt : String
  model : AIModel

/-- `AgentInput`. -/
structure AgentInput where
  id : String
  userInput : String
  schema : Option JVal

/-- The errors `CallV2` can return. -/
inductive CallErr where
  | nilMemoriser
  | invalidId
  | invalidUserInput
  | retrieveFailed (msg : String)
  | unsupported
  | bodyErr (msg : String)
  | genErr (e : OAErr)
deriving DecidableEq

/-- Result of `CallV2`; `sent` counts provider requests issued. -/
inductive CallResult where
  | ok (output : String) (sent : Nat)
  | err (e : CallErr) (sent : Nat)

/-- `Agent.CallV2` (src/pkg/agent/agent.go lines 73-134): validates the
memoriser, the id and the user input in that order, retrieves the
history, dispatches on the model type (the gemini branch is
`errors.ErrUnsupported`; an unmatched model falls through and returns
the empty output with no error), runs `Body` then `Generate`, and
best-effort persists the final state — a failed `Save` is only logged. -/
def callV2 (a : PkgAgent) (ctx : Nat → Bool) (responses : List OAResponse)
    (input : AgentInput) : CallResult :=
  match a.memoriser with
  | none => .err .nilMemoriser 0
  | some mem =>
    if input.id = "" then .err .invalidId 0
    else if input.userInput = "" then .err .invalidUserInput 0
    else
      match mem.retrieve input.id with
      | .error m => .err (.retrieveFailed m) 0
      | .ok state =>
        match a.model with
        | .gemini _ => .err .unsupported 0
        | .other _ => .ok "" 0
        | .openai name =>
          match OpenAIBody name input.userInput a.systemPrompt state input.schema with
          | .error m => .err (.bodyErr m) 0
          | .ok body =>
            match generateOA ctx a.tools responses body 0 with
            | .err e sent => .err (.genErr e) sent
            | .ok body' reply sent =>
              let _ := mem.save input.id body'
              .ok reply sent

/-! ## Tool wrappers: `CreateTool` (src/unnamed/part_003 lines 646-697)
and `ExecuteableFunction` (src/unnamed/part_008 lines 267-304).

The generic decoding performed by `encoding/json` for the declared input
shape `T` is an external collaborator; it is modelled by a `Codec`:
`decode` models marshalling an `any` value and unmarshalling the bytes
into `T`, `decodeString` models unmarshalling a raw JSON string into
`T`. -/

/-- The `encoding/json` contract for a declared input shape. -/
structure Codec (α : Type) where
  decode : JVal → Except String α
  decodeString : String → Except String α

/-- The `execute` closure built by `CreateTool`: a string argument is
unmarshalled directly; anything else is re-marshalled and unmarshalled
into the declared shape; decode failures and function failures are
returned as errors; the result is returned (encoded for the adapter). -/
def createToolExecute {α β : Type} (dec : Codec α) (enc : β → JVal)
    (fn : α → Except String β) : JVal → Except String JVal
  | .str s =>
    match dec.decodeString s with
    | .error e => .error e
    | .ok arg =>
      match fn arg with
      | .error e => .error e
      | .ok o => .ok (enc o)
  | v =>
    match dec.decode v with
    | .error e => .error e
    | .ok arg =>
      match fn arg with
      | .error e => .error e
      | .ok o => .ok (enc o)

/-- The `execute` closure built by `ExecuteableFunction`: the argument is
always re-marshalled and unmarshalled into the declared shape — there is
no special case for a JSON-encoded string. -/
def executeableFunctionExecute {α β : Type} (dec : Codec α) (enc : β → JVal)
    (fn : α → Except String β) (v : JVal) : Except String JVal :=
  match dec.decode v with
  | .error e => .error e
  | .ok arg =>
    match fn arg with
    | .error e => .error e
    | .ok o => .ok (enc o)

/-! ## Statement helpers -/

/-- A message content that the loop accepts silently: an `output_text`
with no refusal. -/
def oaPureContent (c : OAMessageContent) : Bool :=
  c.type == "output_text" && c.refusal == ""

/-- A response item carrying only accepted text: a `message` all of
whose contents are pure.  Such an item is not a pending tool call. -/
def oaPureTextItem : OAOutputItem → Bool
  | .message _ cs => cs.all oaPureContent
  | _ => false

/-- Concatenation, in order, of the texts of a message's contents. -/
def oaContentsText : List OAMessageContent → String
  | [] => ""
  | c :: rest => c.text ++ oaContentsText rest

/-- The text contributed by one response item. -/
def oaItemText : OAOutputItem → String
  | .message _ cs => oaContentsText cs
  | _ => ""

/-- Concatenation, in response order, of all text parts of a response. -/
def oaItemsText : List OAOutputItem → String
  | [] => ""
  | i :: rest => oaItemText i ++ oaItemsText rest

/-- A gemini part with no function call (a text part). -/
def gemPurePart (p : GemPart) : Bool :=
  p.functionCall.name == ""

/-- A gemini candidate none of whose parts is a function call. -/
def gemPureCandidate (c : GemCandidate) : Bool :=
  c.content.parts.all gemPurePart

/-- Concatenation of the texts of a turn's parts. -/
def gemPartsText : List GemPart → String
  | [] => ""
  | p :: rest => p.text ++ gemPartsText rest

/-- Concatenation, in response order, of the texts of all candidates. -/
def gemCandidatesText : List GemCandidate → String
  | [] => ""
  | c :: rest => gemPartsText c.content.parts ++ gemCandidatesText rest

/-- Concatenation of a list of lists (used to describe the contents the
gemini dispatch appends). -/
def concatAll {γ : Type} : List (List γ) → List γ
  | [] => []
  | l :: rest => l ++ concatAll rest

/-- Whether a JSON value is a string. -/
def JVal.isStr : JVal → Bool
  | .str _ => true
  | _ => false

/-- Whether a registration succeeded. -/
def RegisterResult.isOk : RegisterResult → Bool
  | .ok _ => true
  | _ => false

/-- The size of the tool map after a successful registration. -/
def RegisterResult.okLen : RegisterResult → Option Nat
  | .ok a => some (mapLen a.executables)
  | _ => none

/-- The error a registration returned, when it returned one. -/
def RegisterResult.errKind : RegisterResult → Option RegErr
  | .err e _ => some e
  | _ => none

/-- The final conversation state of a successful openai `Generate`. -/
def oaInputOf : OAGenResult → List OAInputItem
  | .ok b _ _ => b.input
  | .err _ _ => []

/-- The final conversation state of a successful gemini `Generate`. -/
def gemContentsOf : GemGenResult → List GemContent
  | .ok b _ _ => b.contents
  | .err _ _ => []

/-- Number of `function_call_output` items in an openai state. -/
def countCallOutputs : List OAInputItem → Nat
  | [] => 0
  | .callOutput _ _ :: rest => countCallOutputs rest + 1
  | _ :: rest => countCallOutputs rest

/-- The failure shape the spec claims: an object
`(success:false, reason:msg)`. -/
def isClaimFailureShape (msg : String) : JVal → Bool
  | .obj [("success", .bool false), ("reason", .str m)] => m == msg
  | _ => false

/-- The failure shape the gemini adapter actually records: an object
`(success:false, failureReason:msg)`. -/
def isGemFailureShape (msg : String) : JVal → Bool
  | .obj [("success", .bool false), ("failureReason", .str m)] => m == msg
  | _ => false

/-- Whether some function-response part of a gemini state satisfies a
check on its response value. -/
def gemStateHas (r : GemGenResult) (check : JVal → Bool) : Bool :=
  (gemContentsOf r).any fun c => c.parts.any fun p => check p.functionResponse.response

/-! ## Concrete fixtures -/

/-- A context that is never cancelled. -/
def ctxF : Nat → Bool := fun _ => false

/-- A context that is cancelled at every check after the first request. -/
def ctxCancelAfterFirst : Nat → Bool := fun k => k != 0

/-- A trivial registered executable for the registration model. -/
def dummyAgentTool : AgentTool :=
  { execute := fun s => .ok s, definition := { properties := .null, required := [] } }

/-- A trivial tool for the adapters. -/
def dummyTool : Tool :=
  { name := "d", description := "", definition := { properties := .null, required := [] },
    execute := fun v => .ok v }

/-- A tool whose execution fails with `disk full`. -/
def toolDiskFull : Tool :=
  { name := "t", description := "", definition := { properties := .null, required := [] },
    execute := fun _ => .error "disk full" }

/-- Two distinct tools registered under the same name `t`. -/
def toolR1 : Tool :=
  { name := "t", description := "", definition := { properties := .null, required := [] },
    execute := fun _ => .ok (.str "r1") }

/-- Second tool with the duplicate name `t`. -/
def toolR2 : Tool :=
  { name := "t", description := "", definition := { properties := .null, required := [] },
    execute := fun _ => .ok (.str "r2") }

/-- An agent already holding `MAX_TOOLS_COUMT` (= 10) tools. -/
def agent10 : GoAgent :=
  { prompt := "", name := "", model := "",
    executables := some
      [("t0", dummyAgentTool), ("t1", dummyAgentTool), ("t2", dummyAgentTool),
       ("t3", dummyAgentTool), ("t4", dummyAgentTool), ("t5", dummyAgentTool),
       ("t6", dummyAgentTool), ("t7", dummyAgentTool), ("t8", dummyAgentTool),
       ("t9", dummyAgentTool)] }

/-- An agent holding 11 tools (reachable from `agent10` by one more
successful `Register`). -/
def agent11 : GoAgent :=
  { prompt := "", name := "", model := "",
    executables := some
      [("t0", dummyAgentTool), ("t1", dummyAgentTool), ("t2", dummyAgentTool),
       ("t3", dummyAgentTool), ("t4", dummyAgentTool), ("t5", dummyAgentTool),
       ("t6", dummyAgentTool), ("t7", dummyAgentTool), ("t8", dummyAgentTool),
       ("t9", dummyAgentTool), ("t10", dummyAgentTool)] }

/-- An agent with an initialized empty tool map. -/
def agentInit : GoAgent :=
  { prompt := "", name := "", model := "", executables := some [] }

/-- An openai response carrying one pending call of tool `t`. -/
def oaRespCallT : OAResponse :=
  { status := "completed", output := some [.functionCall "c1" "t" .null] }

/-- An openai completed response with no items. -/
def oaRespDone : OAResponse :=
  { status := "completed", output := some [] }

/-- An openai completed response with one text message `hi`. -/
def oaRespText : OAResponse :=
  { status := "completed",
    output := some [.message "assistant" [{ type := "output_text", text := "hi", refusal := "" }]] }

/-- A gemini response carrying one pending call of tool `t`. -/
def gemRespCallT : GemResponse :=
  { candidates := some [{ content := { role := "model", parts := [gemCallPart "t" .null] } }] }

/-- A gemini response carrying only the text `done`. -/
def gemRespDone : GemResponse :=
  { candidates := some [{ content := { role := "model", parts := [gemTextPart "done"] } }] }

/-- The gemini run of the disk-full scenario: one pending call whose
tool fails, then a final text response. -/
def gemRunC3 : GemGenResult :=
  generateGem ctxF [toolDiskFull] [gemRespCallT, gemRespDone] emptyGemRequestBody 0

/-- The openai run of the duplicate-name scenario: one pending call
dispatched against two tools registered under the same name. -/
def oaRunC4 : OAGenResult :=
  generateOA ctxF [toolR1, toolR2] [oaRespCallT, oaRespDone] emptyCreateResponse 0

/-- A memoriser whose `Save` always fails. -/
def memFalse : Memoriser :=
  { save := fun _ _ => false, retrieve := fun _ => .ok none }

/-- A memoriser whose `Save` always succeeds (no-op retrieve). -/
def memNoop : Memoriser :=
  { save := fun _ _ => true, retrieve := fun _ => .ok none }

/-- An agent with no memoriser configured. -/
def agentNilMem : PkgAgent :=
  { tools := [], functions := [], memoriser := none, systemPrompt := "",
    model := .openai "gpt-4o" }

/-- An agent with a working memoriser. -/
def agentNoop : PkgAgent :=
  { tools := [], functions := [], memoriser := some memNoop, systemPrompt := "",
    model := .openai "gpt-4o" }

/-- An agent whose memoriser fails every `Save`. -/
def agentC8 : PkgAgent :=
  { tools := [], functions := [], memoriser := some memFalse, systemPrompt := "",
    model := .openai "gpt-4o" }

/-- The request body `Body` builds for user input `hello` on `gpt-4o`
with empty history. -/
def c8body : CreateResponse :=
  { model := "gpt-4o", instructions := "", text := none, tools := [],
    input := [.item (.message "user" [{ type := "input_text", text := "hello", refusal := "" }])] }

/-- The state after the single completed round trip answering `hi`. -/
def c8bodyFinal : CreateResponse :=
  { model := "gpt-4o", instructions := "", text := none, tools := [],
    input := [.item (.message "user" [{ type := "input_text", text := "hello", refusal := "" }]),
              .item (.message "assistant" [{ type := "output_text", text := "hi", refusal := "" }])] }

/-- The declared input shape of the `double` example tool. -/
structure DoubleIn where
  n : Int

/-- The `encoding/json` behaviour for `DoubleIn`: a JSON object with an
`n` number decodes; anything else fails; the raw-string decode models
`json.Unmarshal` on the exercised input bytes. -/
def doubleInCodec : Codec DoubleIn :=
  { decode := fun v =>
      match v with
      | .obj [("n", .num k)] => .ok { n := k }
      | _ => .error "json: cannot unmarshal value into DoubleIn"
    decodeString := fun s =>
      if s = "\x7b\"n\":21\x7d" then .ok { n := 21 }
      else .error "invalid character in JSON" }

/-- The `double` function of the spec scenario. -/
def doubleFn : DoubleIn → Except String DoubleIn :=
  fun a => .ok { n := 2 * a.n }

/-- Encoding of `DoubleIn` back to JSON. -/
def doubleEnc : DoubleIn → JVal :=
  fun a => .obj [("n", .num a.n)]

/-- The JSON-encoded-string form of the arguments `(n: 21)`. -/
def jsonN21 : String := "\x7b\"n\":21\x7d"

/-- Ten registered functions (at the `ExtendAgent` bound). -/
def fs10 : List Tool := List.replicate 10 dummyTool

/-! ## Lemmas about the round-trip processing -/

theorem processOAContents_pure (cs : List OAMessageContent) (st : OAFold)
    (h : cs.all oaPureContent = true) :
    processOAContents st cs = .ok { st with reply := st.reply ++ oaContentsText cs } := by
  induction cs generalizing st with
  | nil => simp [processOAContents, oaContentsText, String.append_empty]
  | cons c rest ih =>
    simp only [List.all_cons, Bool.and_eq_true] at h
    obtain ⟨hc, hrest⟩ := h
    simp only [oaPureContent, Bool.and_eq_true, beq_iff_eq] at hc
    obtain ⟨hty, href⟩ := hc
    simp only [processOAContents, hty, href, bne_self_eq_false, Bool.false_eq_true,
      if_false, oaContentsText]
    rw [ih _ hrest]
    simp [String.append_assoc]

theorem processOAItems_pure (items : List OAOutputItem) (tools : List Tool)
    (st : OAFold) (h : items.all oaPureTextItem = true) :
    processOAItems tools st items =
      .ok { st with
            input := st.input ++ items.map OAInputItem.item,
            reply := st.reply ++ oaItemsText items } := by
  induction items generalizing st with
  | nil => simp [processOAItems, oaItemsText]
  | cons item rest ih =>
    simp only [List.all_cons, Bool.and_eq_true] at h
    obtain ⟨hi, hrest⟩ := h
    match item with
    | .message role cs =>
      simp only [oaPureTextItem] at hi
      simp only [processOAItems, processOAItem]
      rw [processOAContents_pure cs _ hi]
      dsimp only
      rw [ih _ hrest]
      simp [oaItemsText, oaItemText, String.append_assoc, List.append_assoc]
    | .functionCall callId nm args => simp [oaPureTextItem] at hi
    | .other ty => simp [oaPureTextItem] at hi

theorem processGemParts_pure (ps : List GemPart) (tools : List Tool)
    (st : GemFold) (h : ps.all gemPurePart = true) :
    processGemParts tools st ps =
      { st with reply := st.reply ++ gemPartsText ps } := by
  induction ps generalizing st with
  | nil => simp [processGemParts, gemPartsText, String.append_empty]
  | cons p rest ih =>
    simp only [List.all_cons, Bool.and_eq_true] at h
    obtain ⟨hp, hrest⟩ := h
    simp only [gemPurePart] at hp
    simp only [processGemParts, hp, if_true, gemPartsText]
    rw [ih _ hrest]
    simp [String.append_assoc]

theorem processGemCandidates_pure (cs : List GemCandidate) (tools : List Tool)
    (st : GemFold) (h : cs.all gemPureCandidate = true) :
    processGemCandidates tools st cs =
      { st with
        contents := st.contents ++ cs.map GemCandidate.content,
        reply := st.reply ++ gemCandidatesText cs } := by
  induction cs generalizing st with
  | nil => simp [processGemCandidates, gemCandidatesText]
  | cons c rest ih =>
    simp only [List.all_cons, Bool.and_eq_true] at h
    obtain ⟨hc, hrest⟩ := h
    simp only [gemPureCandidate] at hc
    simp only [processGemCandidates]
    rw [processGemParts_pure _ _ _ hc]
    rw [ih _ hrest]
    simp [gemCandidatesText, String.append_assoc, List.append_assoc]

theorem oaDispatch_eq (callId nm : String) (args : JVal)
    (ts : List Tool) (st : OAFold) :
    oaDispatch callId nm args st ts =
      { st with
        input := st.input ++
          (ts.filter (fun t => t.name == nm)).map
            (fun t => OAInputItem.callOutput callId (oaOutputOf t args)) } := by
  induction ts generalizing st with
  | nil => simp [oaDispatch]
  | cons t rest ih =>
    by_cases h : t.name == nm
    · simp only [oaDispatch, h, if_true, List.filter_cons, List.map_cons]
      rw [ih]
      simp [List.append_assoc]
    · simp only [oaDispatch, h, if_false, List.filter_cons]
      exact ih st

theorem gemDispatch_eq (nm : String) (args : JVal)
    (ts : List Tool) (st : GemFold) :
    gemDispatch nm args st ts =
      { st with
        contents := st.contents ++
          concatAll ((ts.filter (fun t => t.name == nm)).map (gemEntriesOf nm args)) } := by
  induction ts generalizing st with
  | nil => simp [gemDispatch, concatAll]
  | cons t rest ih =>
    by_cases h : t.name == nm
    · simp only [gemDispatch, h, if_true, List.filter_cons, List.map_cons]
      rw [ih]
      simp [concatAll, List.append_assoc]
    · simp only [gemDispatch, h, if_false, List.filter_cons]
      exact ih st

theorem processOAItem_functionCall (tools : List Tool) (st : OAFold)
    (callId nm : String) (args : JVal) :
    processOAItem tools st (.functionCall callId nm args) =
      .ok { input := st.input ++ [.item (.functionCall callId nm args)] ++
              (tools.filter (fun t => t.name == nm)).map
                (fun t => OAInputItem.callOutput callId (oaOutputOf t args)),
            reply := st.reply,
            calls := true } := by
  simp only [processOAItem]
  rw [oaDispatch_eq]

theorem generateOA_completed (ctx : Nat → Bool) (tools : List Tool)
    (body : CreateResponse) (rest : List OAResponse) (sent : Nat)
    (resp : OAResponse) (items : List OAOutputItem)
    (hctx : ctx sent = false) (hst : resp.status = "completed")
    (hout : resp.output = some items)
    (hpure : items.all oaPureTextItem = true) :
    generateOA ctx tools (resp :: rest) body sent =
      .ok { oaSetTools tools body with
            input := (oaSetTools tools body).input ++ items.map OAInputItem.item }
        (oaItemsText items) (sent + 1) := by
  conv_lhs => rw [generateOA]
  simp only [hctx, Bool.false_eq_true, if_false, hout]
  rw [processOAItems_pure _ _ _ hpure]
  simp only [hst, bne_self_eq_false, Bool.or_false, Bool.false_eq_true, if_false,
    String.empty_append]

theorem generateGem_completed (ctx : Nat → Bool) (tools : List Tool)
    (body : GemRequestBody) (rest : List GemResponse) (sent : Nat)
    (resp : GemResponse) (cands : List GemCandidate)
    (hctx : ctx sent = false) (hcand : resp.candidates = some cands)
    (hpure : cands.all gemPureCandidate = true) :
    generateGem ctx tools (resp :: rest) body sent =
      .ok { gemSetTools tools body with
            contents := (gemSetTools tools body).contents ++ cands.map GemCandidate.content }
        (gemCandidatesText cands) (sent + 1) := by
  conv_lhs => rw [generateGem]
  simp only [hctx, Bool.false_eq_true, if_false, hcand]
  rw [processGemCandidates_pure _ _ _ hpure]
  simp only [Bool.false_eq_true, if_false, String.empty_append]

theorem generateOA_call_step (ctx : Nat → Bool) (tools : List Tool)
    (body : CreateResponse) (rest : List OAResponse) (sent : Nat)
    (resp : OAResponse) (callId nm : String) (args : JVal)
    (hctx : ctx sent = false)
    (hout : resp.output = some [.functionCall callId nm args]) :
    generateOA ctx tools (resp :: rest) body sent =
      generateOA ctx tools rest
        { oaSetTools tools body with
          input := (oaSetTools tools body).input ++
            [.item (.functionCall callId nm args)] ++
            (tools.filter (fun t => t.name == nm)).map
              (fun t => OAInputItem.callOutput callId (oaOutputOf t args)) }
        (sent + 1) := by
  conv_lhs => rw [generateOA]
  simp only [hctx, Bool.false_eq_true, if_false, hout, processOAItems]
  rw [processOAItem_functionCall]
  simp only [Bool.true_or, if_true]

theorem generateGem_call_step (ctx : Nat → Bool) (tools : List Tool)
    (body : GemRequestBody) (rest : List GemResponse) (sent : Nat)
    (resp : GemResponse) (content : GemContent) (p : GemPart) (nm : String)
    (hctx : ctx sent = false)
    (hcand : resp.candidates = some [{ content := content }])
    (hparts : content.parts = [p])
    (hname : p.functionCall.name = nm)
    (hnm : (nm == "") = false) :
    generateGem ctx tools (resp :: rest) body sent =
      generateGem ctx tools rest
        { gemSetTools tools body with
          contents := (gemSetTools tools body).contents ++ [content] ++
            concatAll ((tools.filter (fun t => t.name == nm)).map
              (gemEntriesOf nm p.functionCall.args)) }
        (sent + 1) := by
  conv_lhs => rw [generateGem]
  simp only [hctx, Bool.false_eq_true, if_false, hcand, processGemCandidates,
    hparts, processGemParts, hname, hnm, if_false]
  rw [gemDispatch_eq]
  simp [List.append_assoc]

theorem generateOA_cancelled (ctx : Nat → Bool) (tools : List Tool)
    (responses : List OAResponse) (body : CreateResponse) (sent : Nat)
    (h : ctx sent = true) :
    generateOA ctx tools responses body sent = .err .cancelled sent := by
  rw [generateOA.eq_def]
  simp only [h, if_true]

theorem generateGem_cancelled (ctx : Nat → Bool) (tools : List Tool)
    (responses : List GemResponse) (body : GemRequestBody) (sent : Nat)
    (h : ctx sent = true) :
    generateGem ctx tools responses body sent = .err .cancelled sent := by
  rw [generateGem.eq_def]
  simp only [h, if_true]

theorem mem_concatAll {γ δ : Type} (f : δ → List γ) {x : γ} {t : δ}
    {ts : List δ} (ht : t ∈ ts) (hx : x ∈ f t) :
    x ∈ concatAll (ts.map f) := by
  induction ts with
  | nil => cases ht
  | cons hd tl ih =>
    rcases List.mem_cons.mp ht with h | h
    · subst h
      exact List.mem_append.mpr (Or.inl hx)
    · exact List.mem_append.mpr (Or.inr (ih h))

/-- C1: a provider response with zero pending tool calls and a
completion signal (Provider A: status `completed` and only accepted
text messages; Provider B: no function-call part in any candidate)
makes `Generate` terminate after exactly one round trip, answering the
concatenation, in response order, of all text parts of that response. -/
theorem claim1_completed_one_trip
    (ctx : Nat → Bool) (tools : List Tool) (sent : Nat)
    (obody : CreateResponse) (oresp : OAResponse) (orest : List OAResponse)
    (items : List OAOutputItem)
    (gbody : GemRequestBody) (gresp : GemResponse) (grest : List GemResponse)
    (cands : List GemCandidate)
    (hctx : ctx sent = false)
    (h1 : oresp.status = "completed") (h2 : oresp.output = some items)
    (h3 : items.all oaPureTextItem = true)
    (g1 : gresp.candidates = some cands)
    (g2 : cands.all gemPureCandidate = true) :
    (∃ b, generateOA ctx tools (oresp :: orest) obody sent =
        .ok b (oaItemsText items) (sent + 1)) ∧
    (∃ b, generateGem ctx tools (gresp :: grest) gbody sent =
        .ok b (gemCandidatesText cands) (sent + 1)) :=
  ⟨⟨_, generateOA_completed ctx tools obody orest sent oresp items hctx h1 h2 h3⟩,
   ⟨_, generateGem_completed ctx tools gbody grest sent gresp cands hctx g1 g2⟩⟩

/-- Witness for C1: a completed text-only response on each provider is
answered in one round trip. -/
theorem claim1_witness :
    (∃ b, generateOA ctxF [] (oaRespText :: []) emptyCreateResponse 0 =
        .ok b "hi" 1) ∧
    (∃ b, generateGem ctxF [] (gemRespDone :: []) emptyGemRequestBody 0 =
        .ok b "done" 1) :=
  claim1_completed_one_trip ctxF [] 0 emptyCreateResponse oaRespText []
    [.message "assistant" [{ type := "output_text", text := "hi", refusal := "" }]]
    emptyGemRequestBody gemRespDone []
    [{ content := { role := "model", parts := [gemTextPart "done"] } }]
    rfl rfl rfl (by decide) rfl (by decide)

/-- C7: a cancellation signal on the call context is observed at the
start of each Requesting transition: whenever the context is done at
the check preceding request number `sent`, `Generate` returns the
cancellation error with `sent` unchanged — that request is never
issued; in particular a context cancelled after tool dispatch stops the
second round trip of either adapter. -/
theorem claim7_cancellation_before_request
    (ctx : Nat → Bool) (tools : List Tool) (sent : Nat)
    (oresponses : List OAResponse) (obody : CreateResponse)
    (gresponses : List GemResponse) (gbody : GemRequestBody)
    (oresp : OAResponse) (orest : List OAResponse)
    (gresp : GemResponse) (grest : List GemResponse)
    (content : GemContent) (p : GemPart)
    (callId nm : String) (args : JVal) :
    (ctx sent = true →
      generateOA ctx tools oresponses obody sent = .err .cancelled sent) ∧
    (ctx sent = true →
      generateGem ctx tools gresponses gbody sent = .err .cancelled sent) ∧
    (ctx sent = false → ctx (sent + 1) = true →
      oresp.output = some [.functionCall callId nm args] →
      generateOA ctx tools (oresp :: orest) obody sent = .err .cancelled (sent + 1)) ∧
    (ctx sent = false → ctx (sent + 1) = true →
      gresp.candidates = some [{ content := content }] →
      content.parts = [p] → p.functionCall.name = nm → (nm == "") = false →
      generateGem ctx tools (gresp :: grest) gbody sent = .err .cancelled (sent + 1)) := by
  refine ⟨fun h => generateOA_cancelled _ _ _ _ _ h,
          fun h => generateGem_cancelled _ _ _ _ _ h,
          fun h0 h1 hout => ?_, fun h0 h1 hcand hparts hname hnm => ?_⟩
  · rw [generateOA_call_step ctx tools obody orest sent oresp callId nm args h0 hout]
    exact generateOA_cancelled _ _ _ _ _ h1
  · rw [generateGem_call_step ctx tools gbody grest sent gresp content p nm h0 hcand
      hparts hname hnm]
    exact generateGem_cancelled _ _ _ _ _ h1

/-- Witness for C7: an already-cancelled context stops the first
request of either adapter, and a context cancelled after the first
round trip stops the second request that a pending tool call would
trigger. -/
theorem claim7_witness :
    generateOA (fun _ => true) [] [] emptyCreateResponse 0 = .err .cancelled 0 ∧
    generateGem (fun _ => true) [] [] emptyGemRequestBody 0 = .err .cancelled 0 ∧
    generateOA ctxCancelAfterFirst [toolR1] (oaRespCallT :: []) emptyCreateResponse 0 =
      .err .cancelled 1 ∧
    generateGem ctxCancelAfterFirst [toolDiskFull] (gemRespCallT :: []) emptyGemRequestBody 0 =
      .err .cancelled 1 := by
  have h := claim7_cancellation_before_request (fun _ => true) [] 0 [] emptyCreateResponse
    [] emptyGemRequestBody oaRespCallT [] gemRespCallT []
    { role := "model", parts := [gemCallPart "t" .null] } (gemCallPart "t" .null)
    "c1" "t" .null
  have h' := claim7_cancellation_before_request ctxCancelAfterFirst [toolR1] 0 []
    emptyCreateResponse [] emptyGemRequestBody oaRespCallT [] gemRespCallT []
    { role := "model", parts := [gemCallPart "t" .null] } (gemCallPart "t" .null)
    "c1" "t" .null
  have h'' := claim7_cancellation_before_request ctxCancelAfterFirst [toolDiskFull] 0 []
    emptyCreateResponse [] emptyGemRequestBody oaRespCallT [] gemRespCallT []
    { role := "model", parts := [gemCallPart "t" .null] } (gemCallPart "t" .null)
    "c1" "t" .null
  exact ⟨h.1 rfl, h.2.1 rfl,
    h'.2.2.1 rfl rfl rfl,
    h''.2.2.2 rfl rfl rfl rfl rfl rfl⟩

/-- C3 counterexample: in the gemini adapter, a tool failing with
`disk full` does not put an entry of the claimed shape
`(success:false, reason:"disk full")` into the conversation state — the
recorded entry carries the field `failureReason` instead. -/
theorem claim3_counterexample :
    gemStateHas gemRunC3 (isClaimFailureShape "disk full") = false ∧
    gemStateHas gemRunC3 (isGemFailureShape "disk full") = true :=
  ⟨rfl, rfl⟩

/-- C3 (amended): when a matched tool's execute fails, neither adapter
aborts: the openai adapter appends `(success:false, reason:msg)` as the
call's `function_call_output` and issues another round trip; the gemini
adapter appends `(success:false, failureReason:msg)` (followed by an
extra function-response entry holding the nil result) and issues
another round trip. -/
theorem claim3_tool_failure_recorded_loop_continues
    (ctx : Nat → Bool) (tools : List Tool) (sent : Nat)
    (obody : CreateResponse) (oresp : OAResponse) (orest : List OAResponse)
    (callId nm : String) (args : JVal) (t : Tool) (msg : String)
    (gbody : GemRequestBody) (gresp : GemResponse) (grest : List GemResponse)
    (content : GemContent) (p : GemPart)
    (hctx : ctx sent = false)
    (ht : t ∈ tools) (hname : t.name = nm)
    (hfail : t.execute args = .error msg)
    (hout : oresp.output = some [.functionCall callId nm args])
    (hcand : gresp.candidates = some [{ content := content }])
    (hparts : content.parts = [p])
    (hpname : p.functionCall.name = nm) (hnm : (nm == "") = false)
    (hpargs : p.functionCall.args = args) :
    (∃ body', generateOA ctx tools (oresp :: orest) obody sent =
        generateOA ctx tools orest body' (sent + 1) ∧
        OAInputItem.callOutput callId (errorResponse msg) ∈ body'.input) ∧
    (∃ body', generateGem ctx tools (gresp :: grest) gbody sent =
        generateGem ctx tools grest body' (sent + 1) ∧
        gemFailureContent nm msg ∈ body'.contents) := by
  constructor
  · refine ⟨_, generateOA_call_step ctx tools obody orest sent oresp callId nm args
      hctx hout, ?_⟩
    apply List.mem_append.mpr
    right
    apply List.mem_map.mpr
    refine ⟨t, List.mem_filter.mpr ⟨ht, by simp [hname]⟩, ?_⟩
    simp [oaOutputOf, hfail]
  · refine ⟨_, generateGem_call_step ctx tools gbody grest sent gresp content p nm
      hctx hcand hparts hpname hnm, ?_⟩
    apply List.mem_append.mpr
    right
    apply mem_concatAll _ (List.mem_filter.mpr ⟨ht, by simp [hname]⟩)
    simp [gemEntriesOf, hpargs, hfail]

/-- Witness for C3: at the disk-full scenario both adapters record the
structured failure and proceed to another round trip. -/
theorem claim3_witness :
    (∃ body', generateOA ctxF [toolDiskFull] (oaRespCallT :: []) emptyCreateResponse 0 =
        generateOA ctxF [toolDiskFull] [] body' 1 ∧
        OAInputItem.callOutput "c1" (errorResponse "disk full") ∈ body'.input) ∧
    (∃ body', generateGem ctxF [toolDiskFull] (gemRespCallT :: []) emptyGemRequestBody 0 =
        generateGem ctxF [toolDiskFull] [] body' 1 ∧
        gemFailureContent "t" "disk full" ∈ body'.contents) :=
  claim3_tool_failure_recorded_loop_continues ctxF [toolDiskFull] 0
    emptyCreateResponse oaRespCallT [] "c1" "t" .null toolDiskFull "disk full"
    emptyGemRequestBody gemRespCallT []
    { role := "model", parts := [gemCallPart "t" .null] } (gemCallPart "t" .null)
    rfl (List.mem_cons_self _ _) rfl rfl rfl rfl rfl rfl rfl rfl

/-- C4 counterexample: one pending call of `t`, with two tools
registered under the name `t`, executes both of them — two
`function_call_output` items are appended, not exactly one. -/
theorem claim4_counterexample :
    countCallOutputs (oaInputOf oaRunC4) = 2 :=
  rfl

/-- C4 (amended): for a pending tool call, each adapter executes every
registered tool whose name exactly matches the called name, once each
and in registration order (so exactly one when registered names are
unique), appending each tool's structured result or structured failure
to the state before the next round trip. -/
theorem claim4_every_match_dispatched
    (ctx : Nat → Bool) (tools : List Tool) (sent : Nat)
    (obody : CreateResponse) (oresp : OAResponse) (orest : List OAResponse)
    (callId nm : String) (args : JVal)
    (gbody : GemRequestBody) (gresp : GemResponse) (grest : List GemResponse)
    (content : GemContent) (p : GemPart)
    (hctx : ctx sent = false)
    (hout : oresp.output = some [.functionCall callId nm args])
    (hcand : gresp.candidates = some [{ content := content }])
    (hparts : content.parts = [p])
    (hpname : p.functionCall.name = nm) (hnm : (nm == "") = false) :
    (generateOA ctx tools (oresp :: orest) obody sent =
      generateOA ctx tools orest
        { oaSetTools tools obody with
          input := (oaSetTools tools obody).input ++
            [.item (.functionCall callId nm args)] ++
            (tools.filter (fun t => t.name == nm)).map
              (fun t => OAInputItem.callOutput callId (oaOutputOf t args)) }
        (sent + 1)) ∧
    (generateGem ctx tools (gresp :: grest) gbody sent =
      generateGem ctx tools grest
        { gemSetTools tools gbody with
          contents := (gemSetTools tools gbody).contents ++ [content] ++
            concatAll ((tools.filter (fun t => t.name == nm)).map
              (gemEntriesOf nm p.functionCall.args)) }
        (sent + 1)) :=
  ⟨generateOA_call_step ctx tools obody orest sent oresp callId nm args hctx hout,
   generateGem_call_step ctx tools gbody grest sent gresp content p nm hctx hcand
     hparts hpname hnm⟩

/-- Witness for C4: the dispatch characterization at the duplicate-name
fixture. -/
theorem claim4_witness :
    (generateOA ctxF [toolR1, toolR2] (oaRespCallT :: []) emptyCreateResponse 0 =
      generateOA ctxF [toolR1, toolR2] []
        { oaSetTools [toolR1, toolR2] emptyCreateResponse with
          input := (oaSetTools [toolR1, toolR2] emptyCreateResponse).input ++
            [.item (.functionCall "c1" "t" .null)] ++
            (([toolR1, toolR2].filter (fun t => t.name == "t")).map
              (fun t => OAInputItem.callOutput "c1" (oaOutputOf t .null))) }
        1) ∧
    (generateGem ctxF [toolR1, toolR2] (gemRespCallT :: []) emptyGemRequestBody 0 =
      generateGem ctxF [toolR1, toolR2] []
        { gemSetTools [toolR1, toolR2] emptyGemRequestBody with
          contents := (gemSetTools [toolR1, toolR2] emptyGemRequestBody).contents ++
            [{ role := "model", parts := [gemCallPart "t" .null] }] ++
            concatAll ((([toolR1, toolR2].filter (fun t => t.name == "t")).map
              (gemEntriesOf "t" (gemCallPart "t" .null).functionCall.args))) }
        1) :=
  claim4_every_match_dispatched ctxF [toolR1, toolR2] 0
    emptyCreateResponse oaRespCallT [] "c1" "t" .null
    emptyGemRequestBody gemRespCallT []
    { role := "model", parts := [gemCallPart "t" .null] } (gemCallPart "t" .null)
    rfl rfl rfl rfl rfl rfl

/-- C2: `Call` validates, in order, the history store, the id and the
user input, and each validation failure is returned before any provider
request is issued (`sent = 0`). -/
theorem claim2_validation_before_network
    (a : PkgAgent) (ctx : Nat → Bool) (responses : List OAResponse)
    (input : AgentInput) :
    (a.memoriser = none →
      callV2 a ctx responses input = .err .nilMemoriser 0) ∧
    (a.memoriser.isSome = true → input.id = "" →
      callV2 a ctx responses input = .err .invalidId 0) ∧
    (a.memoriser.isSome = true → input.id ≠ "" → input.userInput = "" →
      callV2 a ctx responses input = .err .invalidUserInput 0) := by
  refine ⟨fun h => ?_, fun hm hid => ?_, fun hm hid hui => ?_⟩
  · simp [callV2, h]
  · obtain ⟨m, hm'⟩ := Option.isSome_iff_exists.mp hm
    simp [callV2, hm', hid]
  · obtain ⟨m, hm'⟩ := Option.isSome_iff_exists.mp hm
    simp [callV2, hm', hid, hui]

/-- Witness for C2: a nil store, an empty id and an empty user input
each fail with their own error and zero requests issued. -/
theorem claim2_witness :
    callV2 agentNilMem ctxF [] { id := "i", userInput := "u", schema := none } =
      .err .nilMemoriser 0 ∧
    callV2 agentNoop ctxF [] { id := "", userInput := "u", schema := none } =
      .err .invalidId 0 ∧
    callV2 agentNoop ctxF [] { id := "i", userInput := "", schema := none } =
      .err .invalidUserInput 0 :=
  ⟨(claim2_validation_before_network agentNilMem ctxF []
      { id := "i", userInput := "u", schema := none }).1 rfl,
   (claim2_validation_before_network agentNoop ctxF []
      { id := "", userInput := "u", schema := none }).2.1 rfl rfl,
   (claim2_validation_before_network agentNoop ctxF []
      { id := "i", userInput := "", schema := none }).2.2 rfl (by decide) rfl⟩

/-- C8: when the orchestration loop succeeds, a failing `Save` of the
final state does not fail the call — `CallV2` still returns the final
text with no error. -/
theorem claim8_persist_failure_does_not_fail_call
    (a : PkgAgent) (mem : Memoriser) (ctx : Nat → Bool)
    (responses : List OAResponse) (input : AgentInput)
    (state : Option CreateResponse) (mname : String)
    (body body' : CreateResponse) (reply : String) (sent : Nat)
    (hmem : a.memoriser = some mem)
    (hid : input.id ≠ "") (hui : input.userInput ≠ "")
    (hret : mem.retrieve input.id = .ok state)
    (hmodel : a.model = .openai mname)
    (hbody : OpenAIBody mname input.userInput a.systemPrompt state input.schema =
      .ok body)
    (hgen : generateOA ctx a.tools responses body 0 = .ok body' reply sent)
    (hsave : mem.save input.id body' = false) :
    callV2 a ctx responses input = .ok reply sent := by
  simp [callV2, hmem, hid, hui, hret, hmodel, hbody, hgen]

/-- Witness for C8: a one-round-trip success with a memoriser whose
`Save` always fails still returns the answer `hi`. -/
theorem claim8_witness :
    callV2 agentC8 ctxF [oaRespText] { id := "i", userInput := "hello", schema := none } =
      .ok "hi" 1 :=
  claim8_persist_failure_does_not_fail_call agentC8 memFalse ctxF [oaRespText]
    { id := "i", userInput := "hello", schema := none } none "gpt-4o"
    c8body c8bodyFinal "hi" 1
    rfl (by decide) (by decide) rfl rfl rfl rfl rfl

/-- C5 counterexample: an agent already holding the maximum (10) tools
accepts one more registration — `Register` succeeds and the tool set
grows to 11 entries, exceeding the claimed bound. -/
theorem claim5_counterexample :
    (agent10.register "t10" dummyAgentTool).isOk = true ∧
    (agent10.register "t10" dummyAgentTool).okLen = some 11 := by
  constructor <;> rfl

/-- C5 (amended): `ExtendAgent` enforces the bound of 10 — an agent
already holding `MAX_TOOLS_COUMT` functions is rejected unchanged, and
a successful extension never exceeds the bound; `Agent.Register`
however rejects only when the agent already holds strictly more than
`MAX_TOOLS_COUMT` tools, so the registered set can reach (but never
exceed) `MAX_TOOLS_COUMT + 1 = 11` entries. -/
theorem claim5_tool_count_bounds
    (fs : List Tool) (f : Tool) (a : GoAgent) (n : String) (t : AgentTool)
    (a' : GoAgent) :
    (MAX_TOOLS_COUMT ≤ fs.length →
      ExtendAgent fs f = (fs, some .exceededMaxToolCount)) ∧
    ((ExtendAgent fs f).2 = none →
      (ExtendAgent fs f).1.length ≤ MAX_TOOLS_COUMT) ∧
    (mapLen a.executables > MAX_TOOLS_COUMT →
      a.register n t = .err .exceededMaxToolCount a) ∧
    (a.register n t = .ok a' →
      mapLen a'.executables ≤ MAX_TOOLS_COUMT + 1) := by
  refine ⟨fun h => ?_, fun h => ?_, fun h => ?_, fun h => ?_⟩
  · simp [ExtendAgent, h]
  · by_cases hlen : fs.length ≥ MAX_TOOLS_COUMT
    · simp [ExtendAgent, hlen] at h
    · simp only [ExtendAgent, if_neg hlen]
      simp only [List.length_append, List.length_singleton]
      omega
  · simp [GoAgent.register, h]
  · unfold GoAgent.register at h
    by_cases hgt : mapLen a.executables > MAX_TOOLS_COUMT
    · rw [if_pos hgt] at h
      cases h
    · rw [if_neg hgt] at h
      by_cases hdup : (mapLookup a.executables n).isSome = true
      · rw [if_pos hdup] at h
        cases h
      · rw [if_neg hdup] at h
        cases hex : a.executables with
        | none => rw [hex] at h; cases h
        | some m =>
          rw [hex] at h
          cases h
          rw [hex] at hgt
          simp only [mapLen, Option.getD_some] at hgt ⊢
          simp only [List.length_append, List.length_singleton]
          omega

/-- Witness for C5: the `ExtendAgent` bound at ten functions, the
over-the-bound `Register` rejection at eleven tools, and a successful
`Register` landing at eleven entries. -/
theorem claim5_witness :
    ExtendAgent fs10 dummyTool = (fs10, some .exceededMaxToolCount) ∧
    ((ExtendAgent [] dummyTool).2 = none →
      (ExtendAgent [] dummyTool).1.length ≤ MAX_TOOLS_COUMT) ∧
    agent11.register "t11" dummyAgentTool = .err .exceededMaxToolCount agent11 ∧
    mapLen agent11.executables ≤ MAX_TOOLS_COUMT + 1 :=
  ⟨(claim5_tool_count_bounds fs10 dummyTool agent10 "x" dummyAgentTool agent10).1
      (by decide),
   (claim5_tool_count_bounds [] dummyTool agent10 "x" dummyAgentTool agent10).2.1,
   (claim5_tool_count_bounds fs10 dummyTool agent11 "t11" dummyAgentTool
      agent11).2.2.1 (by decide),
   (claim5_tool_count_bounds fs10 dummyTool agent10 "t10" dummyAgentTool
      agent11).2.2.2 rfl⟩

/-- C6 counterexample: on an agent holding 11 tools (reachable through
`Register`'s off-by-one bound), registering an already-present name
fails with the max-count error, not the duplicate-name error. -/
theorem claim6_counterexample :
    (mapLookup agent11.executables "t0").isSome = true ∧
    (agent11.register "t0" dummyAgentTool).errKind = some RegErr.exceededMaxToolCount ∧
    (agent11.register "t0" dummyAgentTool).errKind ≠ some RegErr.toolAlreadyExists := by
  refine ⟨rfl, rfl, by decide⟩

/-- C6 (amended): registering a name already present in the tool set
always fails and leaves the agent unchanged; the error is the
duplicate-name error whenever the agent holds at most `MAX_TOOLS_COUMT`
tools, and the max-count error when it holds more. -/
theorem claim6_duplicate_registration_rejected
    (a : GoAgent) (n : String) (t : AgentTool)
    (hmem : (mapLookup a.executables n).isSome = true) :
    (mapLen a.executables ≤ MAX_TOOLS_COUMT →
      a.register n t = .err .toolAlreadyExists a) ∧
    (mapLen a.executables > MAX_TOOLS_COUMT →
      a.register n t = .err .exceededMaxToolCount a) := by
  constructor
  · intro hlen
    unfold GoAgent.register
    rw [if_neg (by omega), if_pos hmem]
  · intro hlen
    unfold GoAgent.register
    rw [if_pos hlen]

/-- Witness for C6: a duplicate registration on a ten-entry agent fails
with the duplicate-name error and leaves the agent unchanged. -/
theorem claim6_witness :
    agent10.register "t0" dummyAgentTool = .err .toolAlreadyExists agent10 ∧
    agent11.register "t0" dummyAgentTool = .err .exceededMaxToolCount agent11 :=
  ⟨(claim6_duplicate_registration_rejected agent10 "t0" dummyAgentTool rfl).1
      (by decide),
   (claim6_duplicate_registration_rejected agent11 "t0" dummyAgentTool rfl).2
      (by decide)⟩

/-- C10: an agent built by `NewAgent` with no options has a nil
`Executables` map, so any otherwise-valid registration panics instead
of returning success or an error; on any agent whose map was
initialized, `Register` never panics. -/
theorem claim10_register_panics_on_nil_map
    (a : GoAgent) (n : String) (t : AgentTool)
    (m : List (String × AgentTool)) :
    (NewAgent [] = .ok a → a.register n t = .panicked) ∧
    (a.executables = some m → a.register n t ≠ .panicked) := by
  constructor
  · intro h
    simp only [NewAgent, NewAgent.go] at h
    cases h
    simp [GoAgent.register, mapLen, mapLookup]
  · intro hex heq
    simp only [GoAgent.register, hex] at heq
    split at heq
    · cases heq
    · split at heq
      · cases heq
      · cases heq

/-- Witness for C10: the option-less `NewAgent` agent panics on its
first registration, while an agent with an initialized empty map does
not. -/
theorem claim10_witness :
    ({ prompt := "", name := "", model := "", executables := none } : GoAgent).register
        "x" dummyAgentTool = .panicked ∧
    agentInit.register "x" dummyAgentTool ≠ .panicked :=
  ⟨(claim10_register_panics_on_nil_map
      { prompt := "", name := "", model := "", executables := none }
      "x" dummyAgentTool []).1 rfl,
   (claim10_register_panics_on_nil_map agentInit "x" dummyAgentTool []).2 rfl⟩

/-- C9 counterexample: the `CreateTool` wrapper accepts the
JSON-encoded-string form of the `double` arguments, but the
`ExecuteableFunction` wrapper rejects the same input with a decode
error — not every registered tool wrapper accepts both forms. -/
theorem claim9_counterexample :
    createToolExecute doubleInCodec doubleEnc doubleFn (.str jsonN21) =
      .ok (.obj [("n", .num 42)]) ∧
    executeableFunctionExecute doubleInCodec doubleEnc doubleFn (.str jsonN21) =
      .error "json: cannot unmarshal value into DoubleIn" :=
  ⟨rfl, rfl⟩

/-- C9 (amended): `CreateTool`'s execute decodes either a JSON value of
the declared shape or a JSON-encoded string of one, while
`ExecuteableFunction`'s execute decodes only the direct value form and
fails on a string whenever the declared shape's codec rejects raw
strings; in both wrappers every decoding failure is returned as an
error from execute, never a panic. -/
theorem claim9_decoding_contract {α β : Type}
    (dec : Codec α) (enc : β → JVal) (fn : α → Except String β)
    (s : String) (v : JVal) (e : String) (arg : α) (out : β) :
    (dec.decodeString s = .error e →
      createToolExecute dec enc fn (.str s) = .error e) ∧
    (dec.decodeString s = .ok arg → fn arg = .ok out →
      createToolExecute dec enc fn (.str s) = .ok (enc out)) ∧
    (dec.decode v = .error e → v.isStr = false →
      createToolExecute dec enc fn v = .error e) ∧
    (dec.decode (.str s) = .error e →
      executeableFunctionExecute dec enc fn (.str s) = .error e) ∧
    (dec.decode v = .error e →
      executeableFunctionExecute dec enc fn v = .error e) := by
  refine ⟨fun h => ?_, fun h1 h2 => ?_, fun h hs => ?_, fun h => ?_, fun h => ?_⟩
  · simp [createToolExecute, h]
  · simp [createToolExecute, h1, h2]
  · cases v <;> simp_all [createToolExecute, JVal.isStr]
  · simp [executeableFunctionExecute, h]
  · simp [executeableFunctionExecute, h]

/-- Witness for C9: the `double` codec exercises every clause — string
decode failure, string decode success, value decode failure, and the
`ExecuteableFunction` rejections. -/
theorem claim9_witness :
    createToolExecute doubleInCodec doubleEnc doubleFn (.str "bad") =
      .error "invalid character in JSON" ∧
    createToolExecute doubleInCodec doubleEnc doubleFn (.str jsonN21) =
      .ok (doubleEnc { n := 42 }) ∧
    createToolExecute doubleInCodec doubleEnc doubleFn (.num 3) =
      .error "json: cannot unmarshal value into DoubleIn" ∧
    executeableFunctionExecute doubleInCodec doubleEnc doubleFn (.str jsonN21) =
      .error "json: cannot unmarshal value into DoubleIn" ∧
    executeableFunctionExecute doubleInCodec doubleEnc doubleFn (.num 3) =
      .error "json: cannot unmarshal value into DoubleIn" :=
  ⟨(claim9_decoding_contract doubleInCodec doubleEnc doubleFn "bad" (.num 3)
      "invalid character in JSON" { n := 21 } { n := 42 }).1 rfl,
   (claim9_decoding_contract doubleInCodec doubleEnc doubleFn jsonN21 (.num 3)
      "err" { n := 21 } { n := 42 }).2.1 rfl rfl,
   (claim9_decoding_contract doubleInCodec doubleEnc doubleFn jsonN21 (.num 3)
      "json: cannot unmarshal value into DoubleIn" { n := 21 } { n := 42 }).2.2.1
      rfl rfl,
   (claim9_decoding_contract doubleInCodec doubleEnc doubleFn jsonN21 (.num 3)
      "json: cannot unmarshal value into DoubleIn" { n := 21 } { n := 42 }).2.2.2.1
      rfl,
   (claim9_decoding_contract doubleInCodec doubleEnc doubleFn jsonN21 (.num 3)
      "json: cannot unmarshal value into DoubleIn" { n := 21 } { n := 42 }).2.2.2.2
      rfl⟩

end Clusterfuc
